/-
Verification of the CartoType navigation headers (cartotype_navigation.h).

Shallow embedding of the turn-classification, vehicle-type normalization,
time-and-distance matrix, and (modelled from the spec where the
implementation is not in the source tree) the route assembler, navigator
fix handling, XML round trip and location-match parameter normalization.

C++ doubles are embedded as rationals (ℚ); int32_t as ℤ; uint32_t as ℕ
with explicit 32-bit masking where complement matters; size_t as ℕ.
-/

import Mathlib

namespace CartoType

/-- Turn types on a route, from `enum class TTurnType`. -/
inductive TTurnType where
  | None
  | Ahead
  | BearRight
  | Right
  | SharpRight
  | Around
  | SharpLeft
  | Left
  | BearLeft
  deriving DecidableEq, Repr

/-- Roundabout states, from `enum class TRoundaboutState`. -/
inductive TRoundaboutState where
  | None
  | Enter
  | Continue
  | Exit
  deriving DecidableEq, Repr

/-- A turn: a choice of route through a node.  Embeds `class TTurn`,
with the same data members and the same defaults. -/
structure TTurn where
  iTurnType : TTurnType := TTurnType.None
  iContinue : Bool := true
  iRoundaboutState : TRoundaboutState := TRoundaboutState.None
  iTurnAngle : ℚ := 0
  iInDirection : ℚ := 0
  iOutDirection : ℚ := 0
  iExitNumber : ℤ := 0
  iChoices : ℤ := 0
  iLeftAlternatives : ℤ := 0
  iRightAlternatives : ℤ := 0
  iIsFork : Bool := false
  iTurnOff : Bool := false
  iJunctionName : String := ""
  iJunctionRef : String := ""
  deriving DecidableEq, Repr

/-- `TTurn::SetTurn(double aTurnAngle)`: sets the turn angle and the turn
type from an angle in degrees; other members are unchanged. -/
def TTurn.SetTurnAngle (t : TTurn) (aTurnAngle : ℚ) : TTurn :=
  let t := { t with iTurnAngle := aTurnAngle }
  if aTurnAngle > 120 then { t with iTurnType := TTurnType.SharpRight }
  else if aTurnAngle > 45 then { t with iTurnType := TTurnType.Right }
  else if aTurnAngle > 15 then { t with iTurnType := TTurnType.BearRight }
  else if aTurnAngle > -15 then { t with iTurnType := TTurnType.Ahead }
  else if aTurnAngle > -45 then { t with iTurnType := TTurnType.BearLeft }
  else if aTurnAngle > -120 then { t with iTurnType := TTurnType.Left }
  else { t with iTurnType := TTurnType.SharpLeft }

/-- The angle normalization performed at the start of the seven-argument
`TTurn::SetTurn`: one conditional shift by ±360. -/
def normalizeTurnAngle (d : ℚ) : ℚ :=
  if d > 180 then d - 360
  else if d < -180 then d + 360
  else d

/-- `TTurn::SetTurn(double aInDir, double aOutDir, int32_t aChoices,
int32_t aLeftAlternatives, int32_t aRightAlternatives, bool aIsFork,
bool aTurnOff)`. -/
def TTurn.SetTurn (t : TTurn) (aInDir aOutDir : ℚ)
    (aChoices aLeftAlternatives aRightAlternatives : ℤ)
    (aIsFork aTurnOff : Bool) : TTurn :=
  let turn_angle := normalizeTurnAngle (aInDir - aOutDir)
  let t := t.SetTurnAngle turn_angle
  let t := { t with
    iInDirection := aInDir
    iOutDirection := aOutDir
    iChoices := aChoices
    iLeftAlternatives := aLeftAlternatives
    iRightAlternatives := aRightAlternatives
    iIsFork := aIsFork
    iTurnOff := aTurnOff }
  if t.iTurnType = TTurnType.Ahead ∧
      (t.iTurnOff ∨ (t.iIsFork ∧ t.iChoices = 2)) then
    { t with iTurnType :=
        if t.iLeftAlternatives ≠ 0 then TTurnType.BearRight
        else TTurnType.BearLeft }
  else t

/-- The turn type assigned by `TTurn::SetTurn(double)`, written with the
branches resolved: each strict `>` test in the source becomes a half-open
interval. -/
theorem setTurnAngle_eq (t : TTurn) (θ : ℚ) :
    (t.SetTurnAngle θ).iTurnType =
      if 120 < θ then TTurnType.SharpRight
      else if 45 < θ then TTurnType.Right
      else if 15 < θ then TTurnType.BearRight
      else if -15 < θ then TTurnType.Ahead
      else if -45 < θ then TTurnType.BearLeft
      else if -120 < θ then TTurnType.Left
      else TTurnType.SharpLeft := by
  simp only [TTurn.SetTurnAngle]
  split_ifs <;> simp_all

/-- C1 (amended). For every turn angle θ in (−180,180], the classification
computed by `TTurn::SetTurn(double)` is: ahead iff −15 < θ ≤ 15;
bear-right iff 15 < θ ≤ 45; right iff 45 < θ ≤ 120; sharp-right iff
120 < θ ≤ 180; bear-left iff −45 < θ ≤ −15; left iff −120 < θ ≤ −45;
sharp-left iff −180 < θ ≤ −120; 'around' is never produced.  Positive
boundary values (15°, 45°, 120°) land in the gentler bucket, but negative
boundary values (−15°, −45°, −120°) land in the sharper bucket. -/
theorem setTurnAngle_classification (t : TTurn) (θ : ℚ)
    (h1 : -180 < θ) (h2 : θ ≤ 180) :
    ((t.SetTurnAngle θ).iTurnType = TTurnType.Ahead ↔ -15 < θ ∧ θ ≤ 15) ∧
    ((t.SetTurnAngle θ).iTurnType = TTurnType.BearRight ↔ 15 < θ ∧ θ ≤ 45) ∧
    ((t.SetTurnAngle θ).iTurnType = TTurnType.Right ↔ 45 < θ ∧ θ ≤ 120) ∧
    ((t.SetTurnAngle θ).iTurnType = TTurnType.SharpRight ↔ 120 < θ ∧ θ ≤ 180) ∧
    ((t.SetTurnAngle θ).iTurnType = TTurnType.BearLeft ↔ -45 < θ ∧ θ ≤ -15) ∧
    ((t.SetTurnAngle θ).iTurnType = TTurnType.Left ↔ -120 < θ ∧ θ ≤ -45) ∧
    ((t.SetTurnAngle θ).iTurnType = TTurnType.SharpLeft ↔ -180 < θ ∧ θ ≤ -120) ∧
    (t.SetTurnAngle θ).iTurnType ≠ TTurnType.Around := by
  rw [setTurnAngle_eq]
  split_ifs with h3 h4 h5 h6 h7 h8 <;>
    refine ⟨?_, ?_, ?_, ?_, ?_, ?_, ?_, ?_⟩ <;> simp <;>
    first
      | exact ⟨by linarith, by linarith⟩
      | (intro hh; linarith)

/-- Witness for C1: the classification table evaluated at θ = 100. -/
theorem setTurnAngle_classification_witness :
    ((TTurn.SetTurnAngle {} 100).iTurnType = TTurnType.Ahead ↔
      -15 < (100 : ℚ) ∧ (100 : ℚ) ≤ 15) ∧
    ((TTurn.SetTurnAngle {} 100).iTurnType = TTurnType.BearRight ↔
      15 < (100 : ℚ) ∧ (100 : ℚ) ≤ 45) ∧
    ((TTurn.SetTurnAngle {} 100).iTurnType = TTurnType.Right ↔
      45 < (100 : ℚ) ∧ (100 : ℚ) ≤ 120) ∧
    ((TTurn.SetTurnAngle {} 100).iTurnType = TTurnType.SharpRight ↔
      120 < (100 : ℚ) ∧ (100 : ℚ) ≤ 180) ∧
    ((TTurn.SetTurnAngle {} 100).iTurnType = TTurnType.BearLeft ↔
      -45 < (100 : ℚ) ∧ (100 : ℚ) ≤ -15) ∧
    ((TTurn.SetTurnAngle {} 100).iTurnType = TTurnType.Left ↔
      -120 < (100 : ℚ) ∧ (100 : ℚ) ≤ -45) ∧
    ((TTurn.SetTurnAngle {} 100).iTurnType = TTurnType.SharpLeft ↔
      -180 < (100 : ℚ) ∧ (100 : ℚ) ≤ -120) ∧
    (TTurn.SetTurnAngle {} 100).iTurnType ≠ TTurnType.Around :=
  setTurnAngle_classification {} 100 (by norm_num) (by norm_num)

/-- Counterexample for C1 as stated: θ = −15 satisfies |θ| ≤ 15, but
`TTurn::SetTurn(double)` classifies it as bear-left, not ahead. -/
theorem setTurnAngle_neg15_not_ahead :
    |(-15 : ℚ)| ≤ 15 ∧
    (TTurn.SetTurnAngle {} (-15)).iTurnType = TTurnType.BearLeft ∧
    (TTurn.SetTurnAngle {} (-15)).iTurnType ≠ TTurnType.Ahead :=
  ⟨by norm_num, by decide, by decide⟩

/-- The angle stored by the seven-argument `TTurn::SetTurn` is the
normalized bearing difference; no later statement changes it. -/
theorem setTurn_iTurnAngle (t : TTurn) (aInDir aOutDir : ℚ)
    (aChoices aLeftAlternatives aRightAlternatives : ℤ)
    (aIsFork aTurnOff : Bool) :
    (t.SetTurn aInDir aOutDir aChoices aLeftAlternatives aRightAlternatives
      aIsFork aTurnOff).iTurnAngle = normalizeTurnAngle (aInDir - aOutDir) := by
  simp only [TTurn.SetTurn, TTurn.SetTurnAngle]
  split_ifs <;> rfl

/-- The single conditional ±360 shift returns one of three values. -/
theorem normalizeTurnAngle_cases (d : ℚ) :
    normalizeTurnAngle d = d ∨ normalizeTurnAngle d = d - 360 ∨
    normalizeTurnAngle d = d + 360 := by
  unfold normalizeTurnAngle
  split_ifs <;> simp

/-- For differences within ±540 the single shift lands in [−180, 180]. -/
theorem normalizeTurnAngle_mem (d : ℚ) (h1 : -540 ≤ d) (h2 : d ≤ 540) :
    -180 ≤ normalizeTurnAngle d ∧ normalizeTurnAngle d ≤ 180 := by
  unfold normalizeTurnAngle
  split_ifs <;> constructor <;> linarith

/-- C2 (amended). `TTurn::SetTurn` computes the turn angle as
inBearing − outBearing shifted once by ±360 when outside ±180; whenever the
bearing difference lies in [−540, 540] the stored angle lies in the CLOSED
interval [−180, 180] (the value −180 is attained, so the half-open interval
(−180,180] of the original claim is not guaranteed; nor is any containment
for differences beyond ±540, which are shifted only once). -/
theorem setTurn_angle_normalized (t : TTurn) (aInDir aOutDir : ℚ)
    (aChoices aLeftAlternatives aRightAlternatives : ℤ)
    (aIsFork aTurnOff : Bool)
    (h1 : -540 ≤ aInDir - aOutDir) (h2 : aInDir - aOutDir ≤ 540) :
    (-180 ≤ (t.SetTurn aInDir aOutDir aChoices aLeftAlternatives
        aRightAlternatives aIsFork aTurnOff).iTurnAngle ∧
      (t.SetTurn aInDir aOutDir aChoices aLeftAlternatives
        aRightAlternatives aIsFork aTurnOff).iTurnAngle ≤ 180) ∧
    ((t.SetTurn aInDir aOutDir aChoices aLeftAlternatives
        aRightAlternatives aIsFork aTurnOff).iTurnAngle = aInDir - aOutDir ∨
      (t.SetTurn aInDir aOutDir aChoices aLeftAlternatives
        aRightAlternatives aIsFork aTurnOff).iTurnAngle = aInDir - aOutDir - 360 ∨
      (t.SetTurn aInDir aOutDir aChoices aLeftAlternatives
        aRightAlternatives aIsFork aTurnOff).iTurnAngle = aInDir - aOutDir + 360) := by
  rw [setTurn_iTurnAngle]
  exact ⟨normalizeTurnAngle_mem _ h1 h2, normalizeTurnAngle_cases _⟩

/-- Witness for C2: bearings 200 and 0 give stored angle −160 ∈ [−180,180]. -/
theorem setTurn_angle_normalized_witness :
    (-180 ≤ (TTurn.SetTurn {} 200 0 0 0 0 false false).iTurnAngle ∧
      (TTurn.SetTurn {} 200 0 0 0 0 false false).iTurnAngle ≤ 180) ∧
    ((TTurn.SetTurn {} 200 0 0 0 0 false false).iTurnAngle = 200 - 0 ∨
      (TTurn.SetTurn {} 200 0 0 0 0 false false).iTurnAngle = 200 - 0 - 360 ∨
      (TTurn.SetTurn {} 200 0 0 0 0 false false).iTurnAngle = 200 - 0 + 360) :=
  setTurn_angle_normalized {} 200 0 0 0 0 false false (by norm_num) (by norm_num)

/-- Counterexample for C2 as stated: incoming bearing 0 and outgoing bearing
180 store turn angle −180, which is outside the half-open interval
(−180, 180]. -/
theorem setTurn_angle_neg180_stored :
    (TTurn.SetTurn {} 0 180 0 0 0 false false).iTurnAngle = -180 ∧
    ¬ (-180 < (TTurn.SetTurn {} 0 180 0 0 0 false false).iTurnAngle) := by
  have h : (TTurn.SetTurn {} 0 180 0 0 0 false false).iTurnAngle = -180 := by
    simp only [TTurn.SetTurn, TTurn.SetTurnAngle, normalizeTurnAngle]
    norm_num
  exact ⟨h, by rw [h]; norm_num⟩

/-- C3 (amended). When the angle classification is 'ahead' and the turn-off
flag is set, or the fork flag is set with exactly two choices,
`TTurn::SetTurn` reclassifies the turn as bear-right when the count of
left alternatives is nonzero and bear-left otherwise; the count of right
alternatives is never consulted (no more-alternatives comparison is made). -/
theorem setTurn_fork_override (t : TTurn) (aInDir aOutDir : ℚ)
    (aChoices aLeftAlternatives aRightAlternatives : ℤ)
    (aIsFork aTurnOff : Bool)
    (hAhead : (t.SetTurnAngle (normalizeTurnAngle (aInDir - aOutDir))).iTurnType
      = TTurnType.Ahead)
    (hCond : aTurnOff = true ∨ (aIsFork = true ∧ aChoices = 2)) :
    (t.SetTurn aInDir aOutDir aChoices aLeftAlternatives aRightAlternatives
      aIsFork aTurnOff).iTurnType =
      if aLeftAlternatives ≠ 0 then TTurnType.BearRight else TTurnType.BearLeft := by
  simp only [TTurn.SetTurn]
  rw [if_pos]
  exact ⟨hAhead, by simpa using hCond⟩

/-- Witness for C3: a two-choice fork taken straight ahead with no left
alternatives is reclassified as bear-left. -/
theorem setTurn_fork_override_witness :
    (TTurn.SetTurn {} 0 0 2 0 1 true false).iTurnType =
      if (0 : ℤ) ≠ 0 then TTurnType.BearRight else TTurnType.BearLeft :=
  setTurn_fork_override {} 0 0 2 0 1 true false
    (by norm_num [TTurn.SetTurnAngle, normalizeTurnAngle])
    (Or.inr ⟨rfl, rfl⟩)

/-- Counterexample for C3 as stated: an otherwise-ahead turn-off with one
alternative on the left and five on the right is classified bear-right,
although more alternatives lie to the right (the claim demands bear-left). -/
theorem setTurn_override_ignores_right_count :
    (TTurn.SetTurn {} 0 0 10 1 5 false true).iTurnType = TTurnType.BearRight ∧
    TTurnType.BearRight ≠ TTurnType.BearLeft ∧ (1 : ℤ) < 5 := by
  refine ⟨?_, by decide, by decide⟩
  simp only [TTurn.SetTurn, TTurn.SetTurnAngle, normalizeTurnAngle]
  norm_num

/-- C4 (amended). The classification computed by `TTurn::SetTurn(double)`
  is never 'around' for any angle whatsoever (the 'around'/U-turn type is
  assigned elsewhere, not by this classification); the classification is a
  pure function of the angle alone (independent of the rest of the TTurn
  state); and when neither the turn-off override nor the two-choice-fork
  override applies, the seven-argument `TTurn::SetTurn` returns exactly the
  pure angle classification of the normalized bearing difference. -/
theorem setTurn_never_around (t t2 t3 : TTurn) (θ : ℚ)
    (aInDir aOutDir : ℚ) (aChoices aLeftAlternatives aRightAlternatives : ℤ)
    (aIsFork aTurnOff : Bool)
    (hNoOverride : aTurnOff = false ∧ (aIsFork = false ∨ aChoices ≠ 2)) :
    (t.SetTurnAngle θ).iTurnType ≠ TTurnType.Around ∧
    (t.SetTurnAngle θ).iTurnType = (t2.SetTurnAngle θ).iTurnType ∧
    (t3.SetTurn aInDir aOutDir aChoices aLeftAlternatives aRightAlternatives
        aIsFork aTurnOff).iTurnType =
      (t3.SetTurnAngle (normalizeTurnAngle (aInDir - aOutDir))).iTurnType := by
  refine ⟨?_, ?_, ?_⟩
  · rw [setTurnAngle_eq]
    split_ifs <;> simp
  · rw [setTurnAngle_eq, setTurnAngle_eq]
  · simp only [TTurn.SetTurn]
    rw [if_neg]
    rintro ⟨-, h2⟩
    obtain ⟨hOff, hFork⟩ := hNoOverride
    subst hOff
    simp only [Bool.false_eq_true, false_or] at h2
    obtain ⟨hf, hc⟩ := h2
    rcases hFork with h | h
    · rw [h] at hf
      exact absurd hf (by simp)
    · exact h hc

/-- Witness for C4: evaluated at θ = 30 and a fork with three choices
(no override applies). -/
theorem setTurn_never_around_witness :
    (TTurn.SetTurnAngle {} 30).iTurnType ≠ TTurnType.Around ∧
    (TTurn.SetTurnAngle {} 30).iTurnType = (TTurn.SetTurnAngle {} 30).iTurnType ∧
    (TTurn.SetTurn {} 90 0 3 1 1 true false).iTurnType =
      (TTurn.SetTurnAngle {} (normalizeTurnAngle (90 - 0))).iTurnType :=
  setTurn_never_around {} {} {} 30 90 0 3 1 1 true false ⟨rfl, Or.inr (by decide)⟩

/-- Counterexample for C4 as stated: θ = 175 is within 11.75° of 180°, yet
the classification is sharp-right, not around. -/
theorem setTurnAngle_175_not_around :
    (180 - 175 : ℚ) < 47/4 ∧
    (TTurn.SetTurnAngle {} 175).iTurnType = TTurnType.SharpRight ∧
    (TTurn.SetTurnAngle {} 175).iTurnType ≠ TTurnType.Around :=
  ⟨by norm_num, by decide, by decide⟩


/-! ## Vehicle types: `TVehicleType::Normalize` -/

/-- `constexpr uint32_t KArcWrongWayFlag = 0x00100000`. -/
def KArcWrongWayFlag : ℕ := 0x00100000

/-- `constexpr uint32_t KArcCarAccessFlag = 0x00800000`. -/
def KArcCarAccessFlag : ℕ := 0x00800000

/-- `constexpr uint32_t KArcOtherAccessFlag = 0x80000000`. -/
def KArcOtherAccessFlag : ℕ := 0x80000000

/-- A vehicle type used in routing; embeds `class TVehicleType` with the
same data members and defaults.  `iAccessFlags` is a uint32, embedded as a
natural number below 2^32. -/
structure TVehicleType where
  iAccessFlags : ℕ := KArcCarAccessFlag ||| KArcWrongWayFlag
  iWeight : ℚ := 0
  iAxleLoad : ℚ := 0
  iDoubleAxleLoad : ℚ := 0
  iTripleAxleLoad : ℚ := 0
  iHeight : ℚ := 0
  iWidth : ℚ := 0
  iLength : ℚ := 0
  iHazMat : Bool := false
  deriving DecidableEq, Repr

/-- `TVehicleType::Normalize()`.  The C++ `iAccessFlags &= ~KArcOtherAccessFlag`
acts on a uint32, so the complement is taken within 32 bits. -/
def TVehicleType.Normalize (v : TVehicleType) : TVehicleType :=
  let flags :=
    if 0 < v.iWeight ∨ 0 < v.iAxleLoad ∨ 0 < v.iDoubleAxleLoad ∨
        0 < v.iTripleAxleLoad ∨ 0 < v.iHeight ∨ 0 < v.iWidth ∨
        0 < v.iLength ∨ v.iHazMat then
      v.iAccessFlags ||| KArcOtherAccessFlag
    else
      v.iAccessFlags &&& (2 ^ 32 - 1 - KArcOtherAccessFlag)
  { v with
    iAccessFlags := flags
    iWeight := if v.iWeight < 0 then 0 else v.iWeight
    iAxleLoad := if v.iAxleLoad < 0 then 0 else v.iAxleLoad
    iDoubleAxleLoad := if v.iDoubleAxleLoad < 0 then 0 else v.iDoubleAxleLoad
    iTripleAxleLoad := if v.iTripleAxleLoad < 0 then 0 else v.iTripleAxleLoad
    iHeight := if v.iHeight < 0 then 0 else v.iHeight
    iWidth := if v.iWidth < 0 then 0 else v.iWidth
    iLength := if v.iLength < 0 then 0 else v.iLength }

/-- C9. After `TVehicleType::Normalize` returns: the `KArcOtherAccessFlag`
bit (bit 31) of `iAccessFlags` is set iff on entry some of the seven numeric
vehicle details was positive or `iHazMat` was true; the seven numeric fields
are non-negative on exit; and (for any genuine uint32 entry value) every bit
of `iAccessFlags` other than bit 31 is unchanged. -/
theorem vehicleType_normalize_spec (v : TVehicleType)
    (hlt : v.iAccessFlags < 2 ^ 32) :
    KArcOtherAccessFlag = 2 ^ 31 ∧
    (v.Normalize.iAccessFlags.testBit 31 = true ↔
      (0 < v.iWeight ∨ 0 < v.iAxleLoad ∨ 0 < v.iDoubleAxleLoad ∨
        0 < v.iTripleAxleLoad ∨ 0 < v.iHeight ∨ 0 < v.iWidth ∨
        0 < v.iLength ∨ v.iHazMat = true)) ∧
    (0 ≤ v.Normalize.iWeight ∧ 0 ≤ v.Normalize.iAxleLoad ∧
      0 ≤ v.Normalize.iDoubleAxleLoad ∧ 0 ≤ v.Normalize.iTripleAxleLoad ∧
      0 ≤ v.Normalize.iHeight ∧ 0 ≤ v.Normalize.iWidth ∧
      0 ≤ v.Normalize.iLength) ∧
    (∀ i : ℕ, i ≠ 31 →
      v.Normalize.iAccessFlags.testBit i = v.iAccessFlags.testBit i) := by
  have hflag : KArcOtherAccessFlag = 2 ^ 31 := by norm_num [KArcOtherAccessFlag]
  have hmask : (2 : ℕ) ^ 32 - 1 - KArcOtherAccessFlag = 2 ^ 31 - 1 := by
    norm_num [KArcOtherAccessFlag]
  refine ⟨hflag, ?_, ?_, ?_⟩
  · simp only [TVehicleType.Normalize]
    split_ifs with hd
    · rw [hflag, Nat.testBit_lor, Nat.testBit_two_pow_self]
      simpa using hd
    · rw [hmask, Nat.testBit_land, Nat.testBit_two_pow_sub_one]
      simpa using hd
  · simp only [TVehicleType.Normalize]
    refine ⟨?_, ?_, ?_, ?_, ?_, ?_, ?_⟩ <;> split_ifs <;> first | rfl | linarith
  · intro i hi
    simp only [TVehicleType.Normalize]
    split_ifs with hd
    · rw [hflag, Nat.testBit_lor, Nat.testBit_two_pow_of_ne (Ne.symm hi)]
      simp
    · rw [hmask, Nat.testBit_land, Nat.testBit_two_pow_sub_one]
      rcases lt_or_gt_of_ne hi with h | h
      · simp [h]
      · have hfalse : v.iAccessFlags.testBit i = false :=
          Nat.testBit_lt_two_pow
            (lt_of_lt_of_le hlt (Nat.pow_le_pow_right (by norm_num) h))
        simp [hfalse, Nat.not_lt.mpr (le_of_lt h)]

/-- A concrete vehicle: negative weight, hazardous materials. -/
def hazmatVehicle : TVehicleType :=
  { iWeight := -3, iHazMat := true }

/-- Witness for C9: the normalization evaluated on `hazmatVehicle`. -/
theorem vehicleType_normalize_spec_witness :
    KArcOtherAccessFlag = 2 ^ 31 ∧
    (hazmatVehicle.Normalize.iAccessFlags.testBit 31 = true ↔
      (0 < hazmatVehicle.iWeight ∨ 0 < hazmatVehicle.iAxleLoad ∨
        0 < hazmatVehicle.iDoubleAxleLoad ∨ 0 < hazmatVehicle.iTripleAxleLoad ∨
        0 < hazmatVehicle.iHeight ∨ 0 < hazmatVehicle.iWidth ∨
        0 < hazmatVehicle.iLength ∨ hazmatVehicle.iHazMat = true)) ∧
    (0 ≤ hazmatVehicle.Normalize.iWeight ∧ 0 ≤ hazmatVehicle.Normalize.iAxleLoad ∧
      0 ≤ hazmatVehicle.Normalize.iDoubleAxleLoad ∧
      0 ≤ hazmatVehicle.Normalize.iTripleAxleLoad ∧
      0 ≤ hazmatVehicle.Normalize.iHeight ∧ 0 ≤ hazmatVehicle.Normalize.iWidth ∧
      0 ≤ hazmatVehicle.Normalize.iLength) ∧
    (∀ i : ℕ, i ≠ 31 →
      hazmatVehicle.Normalize.iAccessFlags.testBit i =
        hazmatVehicle.iAccessFlags.testBit i) :=
  vehicleType_normalize_spec hazmatVehicle (by decide)

/-! ## Time and distance matrices: `CTimeAndDistanceMatrix` -/

/-- `constexpr TResult KErrorInvalidArgument = 15` (cartotype_errors.h). -/
def KErrorInvalidArgument : ℕ := 15

/-- A matrix of route times and distances between sets of points; embeds
`class CTimeAndDistanceMatrix`.  Entries are uint32 values, embedded as ℕ. -/
structure CTimeAndDistanceMatrix where
  m_from_count : ℕ := 0
  m_to_count : ℕ := 0
  m_matrix : List ℕ := []
  deriving DecidableEq, Repr

/-- The constructor from from-count, to-count and raw matrix.  The C++
constructor throws `KErrorInvalidArgument` when `aFromCount * aToCount * 2`
differs from the vector size; the throw is embedded as `Except.error`. -/
def mkTimeAndDistanceMatrix (aFromCount aToCount : ℕ) (aMatrix : List ℕ) :
    Except ℕ CTimeAndDistanceMatrix :=
  if aFromCount * aToCount * 2 ≠ aMatrix.length then
    Except.error KErrorInvalidArgument
  else
    Except.ok
      { m_from_count := aFromCount
        m_to_count := aToCount
        m_matrix := aMatrix }

/-- `CTimeAndDistanceMatrix::FromCount`. -/
def CTimeAndDistanceMatrix.FromCount (m : CTimeAndDistanceMatrix) : ℕ :=
  m.m_from_count

/-- `CTimeAndDistanceMatrix::ToCount`. -/
def CTimeAndDistanceMatrix.ToCount (m : CTimeAndDistanceMatrix) : ℕ :=
  m.m_to_count

/-- `CTimeAndDistanceMatrix::Time`.  The C++ vector indexing is unchecked;
the embedding reads 0 outside the range (the claim is only about valid
indices, where the two agree). -/
def CTimeAndDistanceMatrix.Time (m : CTimeAndDistanceMatrix)
    (aFromIndex aToIndex : ℕ) : ℕ :=
  m.m_matrix.getD ((aFromIndex * m.m_to_count + aToIndex) * 2) 0

/-- `CTimeAndDistanceMatrix::Distance`. -/
def CTimeAndDistanceMatrix.Distance (m : CTimeAndDistanceMatrix)
    (aFromIndex aToIndex : ℕ) : ℕ :=
  m.m_matrix.getD ((aFromIndex * m.m_to_count + aToIndex) * 2 + 1) 0

/-- C10. The matrix constructor fails with `KErrorInvalidArgument` exactly
when `fromCount * toCount * 2` differs from the raw vector's size; on
success `FromCount`/`ToCount` return the constructor arguments and, for all
valid indices, `Time` and `Distance` return the vector elements at positions
`(f*toCount + t)*2` and `(f*toCount + t)*2 + 1`. -/
theorem timeAndDistanceMatrix_spec (aFromCount aToCount : ℕ)
    (aMatrix : List ℕ) :
    (mkTimeAndDistanceMatrix aFromCount aToCount aMatrix =
        Except.error KErrorInvalidArgument ↔
      aFromCount * aToCount * 2 ≠ aMatrix.length) ∧
    (∀ M, mkTimeAndDistanceMatrix aFromCount aToCount aMatrix = Except.ok M →
      M.FromCount = aFromCount ∧ M.ToCount = aToCount ∧
      ∀ f t, f < aFromCount → t < aToCount →
        ∃ (h1 : (f * aToCount + t) * 2 < aMatrix.length)
          (h2 : (f * aToCount + t) * 2 + 1 < aMatrix.length),
          M.Time f t = aMatrix.get ⟨(f * aToCount + t) * 2, h1⟩ ∧
          M.Distance f t = aMatrix.get ⟨(f * aToCount + t) * 2 + 1, h2⟩) := by
  constructor
  · unfold mkTimeAndDistanceMatrix
    split_ifs with h
    · simp [h]
    · simp [h]
  · intro M hM
    unfold mkTimeAndDistanceMatrix at hM
    split_ifs at hM with h
    rw [not_ne_iff] at h
    injection hM with hM'
    subst hM'
    refine ⟨rfl, rfl, ?_⟩
    intro f t hf ht
    have hidx : f * aToCount + t < aFromCount * aToCount := by
      calc f * aToCount + t < f * aToCount + aToCount := by omega
      _ = (f + 1) * aToCount := by ring
      _ ≤ aFromCount * aToCount := Nat.mul_le_mul_right _ (by omega)
    have h1 : (f * aToCount + t) * 2 < aMatrix.length := by omega
    have h2 : (f * aToCount + t) * 2 + 1 < aMatrix.length := by omega
    refine ⟨h1, h2, ?_, ?_⟩
    · simp [CTimeAndDistanceMatrix.Time, List.getD_eq_getElem?_getD,
        List.getElem?_eq_getElem h1, List.get_eq_getElem]
    · simp [CTimeAndDistanceMatrix.Distance, List.getD_eq_getElem?_getD,
        List.getElem?_eq_getElem h2, List.get_eq_getElem]

/-! ## Location match parameters: `TLocationMatchParam::Normalize` -/

/-- Parameters used when matching a road or other feature to a location;
embeds `class TLocationMatchParam` with the same defaults. -/
structure TLocationMatchParam where
  iLocationAccuracyInMeters : ℚ := 0
  iHeadingAccuracyInDegrees : ℚ := 0
  iMaxRoadDistanceInMeters : ℚ := 0
  deriving DecidableEq, Repr

/-- Modelled from the spec: the body of `TLocationMatchParam::Normalize` is
not under src (only its declaration in cartotype_navigation.h).  The spec
(§4.5) and the header's member documentation state that a zero value
indicates the default and that other values are clamped to a legal range. -/
def normalizeValue (x dflt lo hi : ℚ) : ℚ :=
  if x = 0 then dflt else min hi (max lo x)

/-- Modelled from the spec: `TLocationMatchParam::Normalize` — location
accuracy defaults to 8 m and is clamped to 1…1000 m; heading accuracy
defaults to 22.5° and is clamped to 1…90°; maximum road distance defaults
to 100 m and is clamped to 5…10000 m. -/
def TLocationMatchParam.Normalize (p : TLocationMatchParam) :
    TLocationMatchParam :=
  { iLocationAccuracyInMeters :=
      normalizeValue p.iLocationAccuracyInMeters 8 1 1000
    iHeadingAccuracyInDegrees :=
      normalizeValue p.iHeadingAccuracyInDegrees (45/2) 1 90
    iMaxRoadDistanceInMeters :=
      normalizeValue p.iMaxRoadDistanceInMeters 100 5 10000 }

/-- When the default lies in the legal range, the normalized value does too. -/
theorem normalizeValue_mem (x dflt lo hi : ℚ) (h1 : lo ≤ dflt) (h2 : dflt ≤ hi)
    (h3 : lo ≤ hi) :
    lo ≤ normalizeValue x dflt lo hi ∧ normalizeValue x dflt lo hi ≤ hi := by
  unfold normalizeValue
  split_ifs
  · exact ⟨h1, h2⟩
  · exact ⟨le_min h3 (le_max_left _ _), min_le_left _ _⟩

/-- C8. `TLocationMatchParam::Normalize` maps each zero parameter to its
default (8 m, 22.5°, 100 m), clamps each non-zero parameter to its legal
range (1…1000 m, 1…90°, 5…10000 m), and afterwards every parameter lies in
its legal range. -/
theorem locationMatchParam_normalize_spec (p : TLocationMatchParam) :
    (p.iLocationAccuracyInMeters = 0 →
      p.Normalize.iLocationAccuracyInMeters = 8) ∧
    (p.iHeadingAccuracyInDegrees = 0 →
      p.Normalize.iHeadingAccuracyInDegrees = 45/2) ∧
    (p.iMaxRoadDistanceInMeters = 0 →
      p.Normalize.iMaxRoadDistanceInMeters = 100) ∧
    (p.iLocationAccuracyInMeters ≠ 0 →
      p.Normalize.iLocationAccuracyInMeters =
        min 1000 (max 1 p.iLocationAccuracyInMeters)) ∧
    (p.iHeadingAccuracyInDegrees ≠ 0 →
      p.Normalize.iHeadingAccuracyInDegrees =
        min 90 (max 1 p.iHeadingAccuracyInDegrees)) ∧
    (p.iMaxRoadDistanceInMeters ≠ 0 →
      p.Normalize.iMaxRoadDistanceInMeters =
        min 10000 (max 5 p.iMaxRoadDistanceInMeters)) ∧
    (1 ≤ p.Normalize.iLocationAccuracyInMeters ∧
      p.Normalize.iLocationAccuracyInMeters ≤ 1000) ∧
    (1 ≤ p.Normalize.iHeadingAccuracyInDegrees ∧
      p.Normalize.iHeadingAccuracyInDegrees ≤ 90) ∧
    (5 ≤ p.Normalize.iMaxRoadDistanceInMeters ∧
      p.Normalize.iMaxRoadDistanceInMeters ≤ 10000) := by
  refine ⟨?_, ?_, ?_, ?_, ?_, ?_, ?_, ?_, ?_⟩
  · intro h
    simp [TLocationMatchParam.Normalize, normalizeValue, h]
  · intro h
    simp [TLocationMatchParam.Normalize, normalizeValue, h]
  · intro h
    simp [TLocationMatchParam.Normalize, normalizeValue, h]
  · intro h
    simp [TLocationMatchParam.Normalize, normalizeValue, h]
  · intro h
    simp [TLocationMatchParam.Normalize, normalizeValue, h]
  · intro h
    simp [TLocationMatchParam.Normalize, normalizeValue, h]
  · exact normalizeValue_mem _ _ _ _ (by norm_num) (by norm_num) (by norm_num)
  · exact normalizeValue_mem _ _ _ _ (by norm_num) (by norm_num) (by norm_num)
  · exact normalizeValue_mem _ _ _ _ (by norm_num) (by norm_num) (by norm_num)

/-! ## Routes and the route assembler -/

/-- The default-constructed turn, used as the default for a route
segment's `iTurn` member. -/
def defaultTurn : TTurn := {}

/-- Information about a route segment; embeds `class CRouteSegment` (the
road type is embedded as its arc road-type index, the path as a point
list). -/
structure CRouteSegment where
  iRoadType : ℕ := 0
  iMaxSpeed : ℚ := 0
  iName : String := ""
  iRef : String := ""
  iDistance : ℚ := 0
  iTime : ℚ := 0
  iTurnTime : ℚ := 0
  iPath : List (ℚ × ℚ) := []
  iSection : ℤ := 0
  iTurn : TTurn := defaultTurn
  iRestricted : Bool := false
  deriving DecidableEq, Repr

/-- Information about an entire route; embeds `class CRoute` (the fields
the claims are about: the segment list and the route totals). -/
structure CRoute where
  iRouteSegment : List CRouteSegment := []
  iDistance : ℚ := 0
  iTime : ℚ := 0
  deriving DecidableEq, Repr

/-- Modelled from the spec: `CRoute::AppendSegment` (implementation not
under src) appends one segment and accumulates the route totals (§4.2:
per-segment distance/time plus route-level totals). -/
def CRoute.AppendSegment (r : CRoute) (seg : CRouteSegment) : CRoute :=
  { r with
    iRouteSegment := r.iRouteSegment ++ [seg]
    iDistance := r.iDistance + seg.iDistance
    iTime := r.iTime + seg.iTime }

/-- One arc of the raw arc sequence handed to the route assembler (§4.2),
carrying its metadata and whether a waypoint boundary precedes it. -/
structure AssemblerArc where
  roadType : ℕ := 0
  name : String := ""
  distance : ℚ := 0
  time : ℚ := 0
  waypointBoundary : Bool := false
  deriving DecidableEq, Repr

/-- Modelled from the spec: the route assembler's single walk over the arc
sequence (§4.2) — the section index increments at each waypoint boundary
and each arc emits one route segment appended with `AppendSegment`. -/
def assembleFrom (r : CRoute) (sec : ℤ) : List AssemblerArc → CRoute
  | [] => r
  | a :: rest =>
      let sec2 := if a.waypointBoundary then sec + 1 else sec
      assembleFrom
        (r.AppendSegment
          { iRoadType := a.roadType
            iName := a.name
            iDistance := a.distance
            iTime := a.time
            iSection := sec2 })
        sec2 rest

/-- Modelled from the spec: `Assemble(arcSequence, profile) → Route` (§4.2),
starting from the empty route and section 0. -/
def Assemble (arcs : List AssemblerArc) : CRoute :=
  assembleFrom {} 0 arcs

/-- Invariant of the assembler walk: if the accumulated route has
non-decreasing section indices all bounded by the current section counter,
and its totals equal the sums over its segments, the same holds of the
finished route. -/
theorem assembleFrom_invariants (arcs : List AssemblerArc) (r : CRoute)
    (sec : ℤ)
    (hpair : (r.iRouteSegment.map CRouteSegment.iSection).Pairwise (· ≤ ·))
    (hub : ∀ s ∈ r.iRouteSegment, s.iSection ≤ sec)
    (hdist : r.iDistance = (r.iRouteSegment.map CRouteSegment.iDistance).sum)
    (htime : r.iTime = (r.iRouteSegment.map CRouteSegment.iTime).sum) :
    ((assembleFrom r sec arcs).iRouteSegment.map
      CRouteSegment.iSection).Pairwise (· ≤ ·) ∧
    (assembleFrom r sec arcs).iDistance =
      ((assembleFrom r sec arcs).iRouteSegment.map
        CRouteSegment.iDistance).sum ∧
    (assembleFrom r sec arcs).iTime =
      ((assembleFrom r sec arcs).iRouteSegment.map CRouteSegment.iTime).sum := by
  induction arcs generalizing r sec with
  | nil => exact ⟨hpair, hdist, htime⟩
  | cons a rest ih =>
      simp only [assembleFrom]
      have hsec : sec ≤ (if a.waypointBoundary then sec + 1 else sec) := by
        split_ifs <;> omega
      apply ih
      · simp only [CRoute.AppendSegment, List.map_append, List.pairwise_append]
        refine ⟨hpair, by simp, ?_⟩
        intro x hx y hy
        simp only [List.map_cons, List.map_nil, List.mem_singleton] at hy
        subst hy
        simp only [List.mem_map] at hx
        obtain ⟨s, hs, rfl⟩ := hx
        exact le_trans (hub s hs) hsec
      · intro s hs
        simp only [CRoute.AppendSegment, List.mem_append,
          List.mem_singleton] at hs
        rcases hs with hs | rfl
        · exact le_trans (hub s hs) hsec
        · rfl
      · simp [CRoute.AppendSegment, hdist]
      · simp [CRoute.AppendSegment, htime]

/-- C5.  For every assembled route: the section indices of its segments,
read in list order, never decrease; the route total distance equals the
exact sum of the segment distances; and the route total time equals the
exact sum of the segment times. -/
theorem assemble_route_invariants (arcs : List AssemblerArc) :
    ((Assemble arcs).iRouteSegment.map CRouteSegment.iSection).Pairwise (· ≤ ·) ∧
    (Assemble arcs).iDistance =
      ((Assemble arcs).iRouteSegment.map CRouteSegment.iDistance).sum ∧
    (Assemble arcs).iTime =
      ((Assemble arcs).iRouteSegment.map CRouteSegment.iTime).sum := by
  unfold Assemble
  exact assembleFrom_invariants arcs {} 0 (by simp) (by simp) (by simp) (by simp)

/-! ## The navigator: fix handling -/

/-- Parameters governing navigation behavior; embeds `class TNavigatorParam`
with the same defaults. -/
structure TNavigatorParam where
  iMinimumFixDistance : ℤ := 5
  iRouteDistanceTolerance : ℤ := 20
  iRouteTimeTolerance : ℤ := 30
  iAutoReRoute : Bool := true
  iNavigationEnabled : Bool := true
  deriving DecidableEq, Repr

/-- States of the navigation system, from `enum class TNavigationState`. -/
inductive TNavigationState where
  | None
  | NoPosition
  | Turn
  | OffRoute
  | ReRouteNeeded
  | ReRouteDone
  | TurnRound
  | Arrival
  deriving DecidableEq, Repr

/-- Modelled from the spec: the navigator session (§3 'Navigator Session',
§4.4) — the CNavigator implementation is not under src.  Holds the active
route path, the navigation state, the last accepted fix with its time, the
position along the route and the accumulated off-route duration. -/
structure NavigatorSession where
  routePath : List (ℚ × ℚ) := []
  state : TNavigationState := TNavigationState.NoPosition
  lastFixPos : Option (ℚ × ℚ) := Option.none
  lastFixTime : ℚ := 0
  positionAlongRoute : ℕ := 0
  offRouteTime : ℚ := 0
  deriving DecidableEq, Repr

/-- Squared Euclidean distance between two points. -/
def sqDist (a b : ℚ × ℚ) : ℚ :=
  (a.1 - b.1) ^ 2 + (a.2 - b.2) ^ 2

/-- Modelled from the spec: the location matcher over the route path
(§4.5) — the index and squared distance of the nearest route point. -/
def nearestOnPath (path : List (ℚ × ℚ)) (pos : ℚ × ℚ) : Option (ℕ × ℚ) :=
  (List.zip (List.range path.length) path).foldl
    (fun best ip =>
      match best with
      | Option.none => Option.some (ip.1, sqDist ip.2 pos)
      | Option.some b =>
          if sqDist ip.2 pos < b.2 then Option.some (ip.1, sqDist ip.2 pos)
          else Option.some b)
    Option.none

/-- Modelled from the spec: the off-route branch of `Navigate` (§4.4 step
4) — accumulate off-route duration and move to OffRoute, or to
ReRouteDone/ReRouteNeeded according to `iAutoReRoute` once the time
tolerance is exceeded. -/
def offRouteStep (p : TNavigatorParam) (s : NavigatorSession) (fixTime : ℚ) :
    NavigatorSession :=
  let t := s.offRouteTime + (fixTime - s.lastFixTime)
  if t > (p.iRouteTimeTolerance : ℚ) then
    { s with
      offRouteTime := t
      state := if p.iAutoReRoute then TNavigationState.ReRouteDone
               else TNavigationState.ReRouteNeeded }
  else
    { s with offRouteTime := t, state := TNavigationState.OffRoute }

/-- Modelled from the spec: processing of an accepted fix (§4.4 steps
2–4) — match the fix against the route within the distance tolerance;
when matched, update the position along the route and enter Arrival at the
route end or Turn otherwise; when unmatched, take the off-route branch.
The accepted fix always becomes the last accepted fix. -/
def navigateAccept (p : TNavigatorParam) (s : NavigatorSession)
    (fixPos : ℚ × ℚ) (fixTime : ℚ) : NavigatorSession :=
  let s2 :=
    match nearestOnPath s.routePath fixPos with
    | Option.some id =>
        if id.2 ≤ (p.iRouteDistanceTolerance : ℚ) ^ 2 then
          { s with
            positionAlongRoute := id.1
            offRouteTime := 0
            state :=
              if id.1 + 1 = s.routePath.length then TNavigationState.Arrival
              else TNavigationState.Turn }
        else offRouteStep p s fixTime
    | Option.none => offRouteStep p s fixTime
  { s2 with lastFixPos := Option.some fixPos, lastFixTime := fixTime }

/-- Modelled from the spec: `Navigate(fix)` (§4.4) — step 1 rejects a fix
closer than `iMinimumFixDistance` to the last accepted fix as noise, leaving
the whole session state unchanged; otherwise the fix is accepted. -/
def Navigate (p : TNavigatorParam) (s : NavigatorSession) (fixPos : ℚ × ℚ)
    (fixTime : ℚ) : NavigatorSession :=
  match s.lastFixPos with
  | Option.some lf =>
      if sqDist lf fixPos < (p.iMinimumFixDistance : ℚ) ^ 2 then s
      else navigateAccept p s fixPos fixTime
  | Option.none => navigateAccept p s fixPos fixTime

/-- C6.  If `Navigate(fix)` rejects the fix because it is closer than
`iMinimumFixDistance` to the last accepted fix, the call leaves the session
unchanged, and a second `Navigate` call with the same fix also leaves the
session — in particular the navigation state and the position along the
route — unchanged. -/
theorem navigate_reject_idempotent (p : TNavigatorParam)
    (s : NavigatorSession) (fixPos : ℚ × ℚ) (fixTime fixTime2 : ℚ)
    (lf : ℚ × ℚ) (hlast : s.lastFixPos = Option.some lf)
    (hclose : sqDist lf fixPos < (p.iMinimumFixDistance : ℚ) ^ 2) :
    Navigate p s fixPos fixTime = s ∧
    Navigate p (Navigate p s fixPos fixTime) fixPos fixTime2 = s ∧
    (Navigate p (Navigate p s fixPos fixTime) fixPos fixTime2).state = s.state ∧
    (Navigate p (Navigate p s fixPos fixTime) fixPos
      fixTime2).positionAlongRoute = s.positionAlongRoute := by
  have h1 : Navigate p s fixPos fixTime = s := by
    unfold Navigate
    rw [hlast]
    simp only [if_pos hclose]
  have h2 : Navigate p s fixPos fixTime2 = s := by
    unfold Navigate
    rw [hlast]
    simp only [if_pos hclose]
  exact ⟨h1, by rw [h1, h2], by rw [h1, h2], by rw [h1, h2]⟩

/-- A session that has already accepted a fix at the origin. -/
def noisySession : NavigatorSession :=
  { lastFixPos := Option.some (0, 0) }

/-- Witness for C6: a fix 1 m from the last accepted fix (threshold 5 m)
is rejected twice over. -/
theorem navigate_reject_idempotent_witness :
    Navigate {} noisySession (1, 0) 1 = noisySession ∧
    Navigate {} (Navigate {} noisySession (1, 0) 1) (1, 0) 2 = noisySession ∧
    (Navigate {} (Navigate {} noisySession (1, 0) 1) (1, 0) 2).state =
      noisySession.state ∧
    (Navigate {} (Navigate {} noisySession (1, 0) 1) (1, 0)
      2).positionAlongRoute = noisySession.positionAlongRoute :=
  navigate_reject_idempotent {} noisySession (1, 0) 1 2 (0, 0) rfl
    (by norm_num [sqDist])

/-! ## XML round trip for routes -/

/-- An attribute value in the modelled XML document.  Modelled from the
spec: the verbose XML route form (§6) carries profile, segments, turns and
totals; the implementation of `CRoute::WriteAsXml` and the reading
constructor is not under src.  The model keeps each written value exact, so
the claim's "within a small epsilon" is satisfied with zero error. -/
inductive XmlValue where
  | num (q : ℚ)
  | nat (n : ℕ)
  | int (i : ℤ)
  | text (s : String)
  | bool (b : Bool)
  deriving DecidableEq, Repr

/-- An XML element of the modelled document: element name plus attributes. -/
structure XmlElem where
  name : String
  attrs : List (String × XmlValue)
  deriving DecidableEq, Repr

/-- The XML text of a turn type. -/
def turnTypeName : TTurnType → String
  | TTurnType.None => "none"
  | TTurnType.Ahead => "ahead"
  | TTurnType.BearRight => "bear right"
  | TTurnType.Right => "right"
  | TTurnType.SharpRight => "sharp right"
  | TTurnType.Around => "around"
  | TTurnType.SharpLeft => "sharp left"
  | TTurnType.Left => "left"
  | TTurnType.BearLeft => "bear left"

/-- Reads a turn type back from its XML text. -/
def turnTypeOfName (s : String) : Option TTurnType :=
  if s = "none" then Option.some TTurnType.None
  else if s = "ahead" then Option.some TTurnType.Ahead
  else if s = "bear right" then Option.some TTurnType.BearRight
  else if s = "right" then Option.some TTurnType.Right
  else if s = "sharp right" then Option.some TTurnType.SharpRight
  else if s = "around" then Option.some TTurnType.Around
  else if s = "sharp left" then Option.some TTurnType.SharpLeft
  else if s = "left" then Option.some TTurnType.Left
  else if s = "bear left" then Option.some TTurnType.BearLeft
  else Option.none

/-- The turn-type text round-trips. -/
theorem turnTypeOfName_name (ty : TTurnType) :
    turnTypeOfName (turnTypeName ty) = Option.some ty := by
  cases ty <;> rfl

/-- Modelled from the spec: `CRouteSegment::WriteAsXml` — one segment
element carrying the road metadata, distance, time, section and turn. -/
def CRouteSegment.toXml (seg : CRouteSegment) : XmlElem :=
  { name := "segment"
    attrs :=
      [("roadType", XmlValue.nat seg.iRoadType),
       ("maxSpeed", XmlValue.num seg.iMaxSpeed),
       ("name", XmlValue.text seg.iName),
       ("ref", XmlValue.text seg.iRef),
       ("distance", XmlValue.num seg.iDistance),
       ("time", XmlValue.num seg.iTime),
       ("turnTime", XmlValue.num seg.iTurnTime),
       ("section", XmlValue.int seg.iSection),
       ("turnType", XmlValue.text (turnTypeName seg.iTurn.iTurnType)),
       ("turnAngle", XmlValue.num seg.iTurn.iTurnAngle),
       ("restricted", XmlValue.bool seg.iRestricted)] }

/-- Modelled from the spec: the `CartoTypeRoute` XML document written by
`CRoute::WriteAsXml` — the route totals plus one element per segment. -/
structure XmlRouteDoc where
  routeAttrs : List (String × XmlValue)
  segments : List XmlElem
  deriving DecidableEq, Repr

/-- Modelled from the spec: `CRoute::WriteAsXml`. -/
def CRoute.WriteAsXml (r : CRoute) : XmlRouteDoc :=
  { routeAttrs :=
      [("distance", XmlValue.num r.iDistance),
       ("time", XmlValue.num r.iTime)]
    segments := r.iRouteSegment.map CRouteSegment.toXml }

/-- Looks up a numeric attribute. -/
def lookupNum (attrs : List (String × XmlValue)) (k : String) : Option ℚ :=
  match List.lookup k attrs with
  | Option.some (XmlValue.num q) => Option.some q
  | _ => Option.none

/-- Looks up a natural-number attribute. -/
def lookupNat (attrs : List (String × XmlValue)) (k : String) : Option ℕ :=
  match List.lookup k attrs with
  | Option.some (XmlValue.nat n) => Option.some n
  | _ => Option.none

/-- Looks up an integer attribute. -/
def lookupInt (attrs : List (String × XmlValue)) (k : String) : Option ℤ :=
  match List.lookup k attrs with
  | Option.some (XmlValue.int i) => Option.some i
  | _ => Option.none

/-- Looks up a textual attribute. -/
def lookupText (attrs : List (String × XmlValue)) (k : String) : Option String :=
  match List.lookup k attrs with
  | Option.some (XmlValue.text s) => Option.some s
  | _ => Option.none

/-- Looks up a boolean attribute. -/
def lookupBool (attrs : List (String × XmlValue)) (k : String) : Option Bool :=
  match List.lookup k attrs with
  | Option.some (XmlValue.bool b) => Option.some b
  | _ => Option.none

/-- Modelled from the spec: reading one segment element back. -/
def segmentOfXml (e : XmlElem) : Option CRouteSegment :=
  match lookupNat e.attrs "roadType", lookupNum e.attrs "maxSpeed",
      lookupText e.attrs "name", lookupText e.attrs "ref",
      lookupNum e.attrs "distance", lookupNum e.attrs "time",
      lookupNum e.attrs "turnTime", lookupInt e.attrs "section",
      (lookupText e.attrs "turnType").bind turnTypeOfName,
      lookupNum e.attrs "turnAngle", lookupBool e.attrs "restricted" with
  | Option.some rt, Option.some ms, Option.some nm, Option.some rf,
    Option.some d, Option.some ti, Option.some tt, Option.some sec,
    Option.some tty, Option.some ta, Option.some rs =>
      Option.some
        { iRoadType := rt
          iMaxSpeed := ms
          iName := nm
          iRef := rf
          iDistance := d
          iTime := ti
          iTurnTime := tt
          iSection := sec
          iTurn := { iTurnType := tty, iTurnAngle := ta }
          iRestricted := rs }
  | _, _, _, _, _, _, _, _, _, _, _ => Option.none

/-- Modelled from the spec: the reading constructor
`CRoute::CRoute(MInputStream&, const CProjection&)` applied to a
CartoTypeRoute document. -/
def CRoute.ReadXml (doc : XmlRouteDoc) : Option CRoute :=
  match lookupNum doc.routeAttrs "distance", lookupNum doc.routeAttrs "time",
      doc.segments.mapM segmentOfXml with
  | Option.some d, Option.some t, Option.some segs =>
      Option.some { iRouteSegment := segs, iDistance := d, iTime := t }
  | _, _, _ => Option.none

/-- The segment the reader reconstructs from a written segment: the
geometry path is not carried by the modelled attributes; every other field
round-trips (the turn keeps its classification and angle). -/
def segmentViaXml (seg : CRouteSegment) : CRouteSegment :=
  { seg with
    iPath := []
    iTurn := { iTurnType := seg.iTurn.iTurnType
               iTurnAngle := seg.iTurn.iTurnAngle } }

/-- Reading back a written segment succeeds and yields the reconstruction. -/
theorem segmentOfXml_toXml (seg : CRouteSegment) :
    segmentOfXml seg.toXml = Option.some (segmentViaXml seg) := by
  obtain ⟨rt, ms, nm, rf, d, ti, tt, pth, sec, tn, rs⟩ := seg
  obtain ⟨tty, tc, trs, ta, tin, tout, te, tch, tl, tr, tf, tto, tjn, tjr⟩ := tn
  cases tty <;> rfl

/-- Reading back a written segment list succeeds and yields the pointwise
reconstruction. -/
theorem mapM_segmentOfXml (l : List CRouteSegment) :
    (l.map CRouteSegment.toXml).mapM segmentOfXml =
      Option.some (l.map segmentViaXml) := by
  induction l with
  | nil => rfl
  | cons x xs ih =>
      rw [List.map_cons, List.map_cons, List.mapM_cons, segmentOfXml_toXml, ih]
      rfl

/-- The claimed per-segment fields agree between the reconstruction and the
original, pointwise along the lists. -/
theorem forall2_segmentViaXml (l : List CRouteSegment) :
    List.Forall₂
      (fun a b => a.iRoadType = b.iRoadType ∧ a.iName = b.iName ∧
        a.iTurn.iTurnType = b.iTurn.iTurnType)
      (l.map segmentViaXml) l := by
  induction l with
  | nil => exact List.Forall₂.nil
  | cons x xs ih => exact List.Forall₂.cons ⟨rfl, rfl, rfl⟩ ih

/-- C7.  Writing a route as XML and reading that XML back succeeds and
yields a route equal to the original in total distance, total time and
segment count, and, segment by segment, in road class, name and turn
classification.  The modelled writer keeps numeric values exact, so the
distances agree exactly — in particular within any small epsilon. -/
theorem route_xml_roundtrip (r : CRoute) :
    ∃ r2, CRoute.ReadXml r.WriteAsXml = Option.some r2 ∧
      r2.iDistance = r.iDistance ∧ r2.iTime = r.iTime ∧
      r2.iRouteSegment.length = r.iRouteSegment.length ∧
      List.Forall₂
        (fun a b => a.iRoadType = b.iRoadType ∧ a.iName = b.iName ∧
          a.iTurn.iTurnType = b.iTurn.iTurnType)
        r2.iRouteSegment r.iRouteSegment := by
  refine ⟨{ iRouteSegment := r.iRouteSegment.map segmentViaXml,
            iDistance := r.iDistance, iTime := r.iTime },
    ?_, rfl, rfl, by simp, forall2_segmentViaXml r.iRouteSegment⟩
  unfold CRoute.ReadXml CRoute.WriteAsXml
  rw [mapM_segmentOfXml]
  rfl

end CartoType
